import Mathlib

/-!
Verification of the worker/store/query subsystem of the jetson object
detection service (`src/object_detection_api.py`, `src/object_detection_jetson.py`).

Shallow embedding conventions:
* Python floats (confidence, depth) are modelled as `ℚ`; the comparisons and
  means the properties speak about are exact at this level.
* Timestamps (`datetime.now().isoformat()`) are modelled as abstract instants
  `Nat`, threaded in as a `now` parameter wherever the code calls
  `datetime.now()`.
* The mutable `ObjectDetectionAPI` object is modelled as an explicit state
  record `ApiState`; each Python method becomes a function
  `state → result × state`.
* The external collaborators (RealSense frames, the DNN forward pass) enter as
  data: a cycle of the detection loop is driven by a `CycleEvent`, and
  `detect_objects` consumes the raw network output rows.
-/

namespace Jetson

/-! ### Data model

A detection dictionary as assembled in `ObjectDetectionAPI._detection_loop`
(object_detection_api.py lines 90–96): keys `class`, `confidence`, `bbox`,
`depth`, `timestamp`.  `class` is a Lean keyword, so the field is `cls`. -/

structure Detection where
  cls : String
  confidence : ℚ
  bbox : Int × Int × Int × Int
  depth : ℚ
  timestamp : Nat
  deriving DecidableEq, Repr

/-! ### QueryEngine — `query_objects` (object_detection_api.py lines 187–214)

The route reads `class` (absent ⇒ `None`), `min_confidence` (default `0.5`)
and `max_depth` (absent ⇒ `None`) and then filters the current detections with
three `continue` tests.  `if obj_class and ...` uses Python truthiness: the
test is skipped both when `obj_class` is `None` and when it is the empty
string. -/

/-- Python truthiness of the optional `class` query parameter:
`None` and `""` are falsy, every other string is truthy. -/
def pyTruthy : Option String → Bool
  | none => false
  | some c => !(c == "")

/-- The loop body of the `/query` route (lines 197–204): a detection survives
the three `continue` tests iff this returns `true`. -/
def detectionPasses (objClass : Option String) (minConfidence : ℚ)
    (maxDepth : Option ℚ) (d : Detection) : Bool :=
  if pyTruthy objClass && !(some d.cls == objClass) then false
  else if d.confidence < minConfidence then false
  else if (match maxDepth with
           | some m => decide (d.depth > m)
           | none => false) then false
  else true

/-- The filtering loop of `query_objects` (lines 195–204): walk the snapshot in
order, appending each detection that survives the `continue` tests. -/
def query_objects (objClass : Option String) (minConfidence : ℚ)
    (maxDepth : Option ℚ) : List Detection → List Detection
  | [] => []
  | d :: rest =>
    if detectionPasses objClass minConfidence maxDepth d then
      d :: query_objects objClass minConfidence maxDepth rest
    else
      query_objects objClass minConfidence maxDepth rest

/-- The specification's per-detection filter predicate, amended at the class
filter: the code treats an *empty* class filter like an absent one (Python
truthiness), so inclusion requires "class filter absent or empty or equal",
"confidence ≥ minConfidence", and "maxDepth absent or depth ≤ maxDepth". -/
def queryPredicateAmended (objClass : Option String) (minConfidence : ℚ)
    (maxDepth : Option ℚ) (d : Detection) : Prop :=
  (objClass = none ∨ objClass = some "" ∨ objClass = some d.cls) ∧
  minConfidence ≤ d.confidence ∧
  (∀ m, maxDepth = some m → d.depth ≤ m)

/-! ### SummaryAggregator — `get_detection_summary`
(object_detection_api.py lines 113–145)

The method groups the current detections by `class` into the dict
`class_counts` (Python dicts iterate in key-insertion order, i.e. in order of
first occurrence), then emits one `{class, count, average_depth}` entry per
key, where `average_depth` is `np.mean` of the depths of that class. -/

structure ClassSummary where
  cls : String
  count : Nat
  average_depth : ℚ
  deriving DecidableEq, Repr

structure Summary where
  total_objects : Nat
  objects : List ClassSummary
  timestamp : Nat
  deriving DecidableEq, Repr

/-- The key sequence of the `class_counts` dict: distinct classes in order of
first occurrence in the detection list. -/
def classKeys : List Detection → List String
  | [] => []
  | d :: rest => d.cls :: (classKeys rest).filter (fun c => !(c == d.cls))

/-- Final value of `class_counts[c]`: one increment per detection of class
`c` (lines 125–130). -/
def classCount (detections : List Detection) (c : String) : Nat :=
  (detections.filter (fun d => d.cls == c)).length

/-- `np.mean([d['depth'] for d in detections if d['class'] == obj_class])`
(lines 138–140). -/
def classAverageDepth (detections : List Detection) (c : String) : ℚ :=
  let depths := (detections.filter (fun d => d.cls == c)).map (·.depth)
  depths.sum / depths.length

/-- `get_detection_summary` (lines 113–145).  `now` stands for the
`datetime.now()` call; note the returned timestamp is taken at request time,
in both the empty and the non-empty branch. -/
def get_detection_summary (now : Nat) (detections : List Detection) : Summary :=
  if detections.isEmpty then
    { total_objects := 0, objects := [], timestamp := now }
  else
    { total_objects := detections.length
      objects := (classKeys detections).map (fun c =>
        { cls := c
          count := classCount detections c
          average_depth := classAverageDepth detections c })
      timestamp := now }

/-! ### Worker lifecycle — `ObjectDetectionAPI`
(object_detection_api.py lines 19–111, 150–158)

The mutable object fields become an explicit state record.  `detector` is
`true` once `self.detector` holds an `ObjectDetector` (we do not model the
detector object itself here; what matters to the lifecycle is whether it was
constructed).  `threads_spawned` counts `self.detection_thread.start()` calls,
so "no second sampling loop is spawned" is expressible. -/

structure ApiState where
  detector : Bool
  is_running : Bool
  current_detections : List Detection
  threads_spawned : Nat
  deriving DecidableEq, Repr

/-- Fresh `ObjectDetectionAPI()` (lines 20–25). -/
def initialApiState : ApiState :=
  { detector := false, is_running := false, current_detections := []
    threads_spawned := 0 }

inductive StartResult where
  | started
  | already_running
  | error
  deriving DecidableEq, Repr

inductive StopResult where
  | stopped
  deriving DecidableEq, Repr

/-- `initialize_detector` (lines 27–36).  `initOk` is the outcome of the
external `ObjectDetector()` construction: `false` when it raises (e.g. missing
model files), in which case `self.detector` stays `None` and the method
returns `False`. -/
def initialize_detector (initOk : Bool) (s : ApiState) : Bool × ApiState :=
  if initOk then (true, { s with detector := true }) else (false, s)

/-- `start_detection` (lines 38–52). -/
def start_detection (initOk : Bool) (s : ApiState) : StartResult × ApiState :=
  if s.is_running then (StartResult.already_running, s)
  else
    let step := if !s.detector then initialize_detector initOk s else (true, s)
    if !step.1 then (StartResult.error, step.2)
    else
      (StartResult.started,
        { step.2 with is_running := true
                      threads_spawned := step.2.threads_spawned + 1 })

/-- `stop_detection` (lines 54–59): clears the run flag, joins the thread with
a 2 s timeout (no state change), and reports `stopped` unconditionally. -/
def stop_detection (s : ApiState) : StopResult × ApiState :=
  (StopResult.stopped, { s with is_running := false })

/-- The `/health` payload (lines 150–158): constant status string, request
time, and the two state flags. -/
structure Health where
  status : String
  timestamp : Nat
  detector_initialized : Bool
  detection_running : Bool
  deriving DecidableEq, Repr

def health (now : Nat) (s : ApiState) : Health :=
  { status := "healthy", timestamp := now
    detector_initialized := s.detector, detection_running := s.is_running }

/-! ### Detector — `ObjectDetector.detect_objects`
(object_detection_jetson.py lines 51–82) -/

/-- The fixed label list loaded in `load_model` (lines 52–57). -/
def classes : List String :=
  ["background", "aeroplane", "bicycle", "bird", "boat",
   "bottle", "bus", "car", "cat", "chair", "cow", "diningtable",
   "dog", "horse", "motorbike", "person", "pottedplant", "sheep",
   "sofa", "train", "tvmonitor"]

/-- One row of the raw network output `detections[0, 0, i, :]`: a confidence,
a class index (`int(...)` of a float — any integer is possible a priori) and a
scaled bounding box. -/
structure RawDet where
  confidence : ℚ
  idx : Int
  bbox : Int × Int × Int × Int
  deriving DecidableEq, Repr

/-- A raw detection dict as returned by `detect_objects` (lines 76–80). -/
structure DetObj where
  cls : String
  confidence : ℚ
  bbox : Int × Int × Int × Int
  deriving DecidableEq, Repr

/-- Python list indexing `l[i]`: nonnegative indices from the front, negative
indices from the back, `IndexError` (here `none`) outside `[-len, len)`. -/
def pyIndex {α : Type} (l : List α) (i : Int) : Option α :=
  if 0 ≤ i then l.get? i.toNat
  else if 0 ≤ i + l.length then l.get? (i + l.length).toNat
  else none

/-- The filtering loop of `detect_objects` (lines 68–82): keep rows with
confidence strictly above `0.5`, looking their class index up in
`self.classes`.  An out-of-range index raises `IndexError` (modelled as
`none`, aborting the call). -/
def detect_objects : List RawDet → Option (List DetObj)
  | [] => some []
  | r :: rest =>
    if r.confidence > 1/2 then
      match pyIndex classes r.idx, detect_objects rest with
      | some c, some objs =>
        some ({ cls := c, confidence := r.confidence, bbox := r.bbox } :: objs)
      | _, _ => none
    else detect_objects rest

/-! ### Worker loop — `ObjectDetectionAPI._detection_loop`
(object_detection_api.py lines 61–106) -/

/-- Per-detection enrichment done in the loop body (lines 84–96): the depth is
sampled at the bounding-box centre (Python `//` is floor division) and the
record gets the current timestamp. -/
def enrich (depthAt : Int → Int → ℚ) (now : Nat) (objs : List DetObj) :
    List Detection :=
  objs.map (fun o =>
    { cls := o.cls
      confidence := o.confidence
      bbox := o.bbox
      depth := depthAt (Int.fdiv (o.bbox.1 + o.bbox.2.2.1) 2)
                       (Int.fdiv (o.bbox.2.1 + o.bbox.2.2.2) 2)
      timestamp := now })

/-- What the external world does in one iteration of the `while` loop:
either a frame is missing (`continue`, lines 73–74), or a full cycle succeeds
and publishes the given enriched list (lines 76–99), or an exception escapes
frame acquisition / inference. -/
inductive CycleEvent where
  | miss
  | ok (detections : List Detection)
  | exn
  deriving DecidableEq, Repr

/-- `_detection_loop` (lines 61–106) driven by a finite schedule of cycle
events.  The `try`/`except` wraps the whole `while`: an exception clears
`is_running` and ends the loop immediately — the remaining schedule is
discarded, there is no retry.  A successful cycle replaces
`current_detections` under the lock (lines 98–99). -/
def detection_loop (s : ApiState) : List CycleEvent → ApiState
  | [] => s
  | ev :: rest =>
    if !s.is_running then s
    else if !s.detector then s
    else
      match ev with
      | CycleEvent.miss => detection_loop s rest
      | CycleEvent.ok dets =>
        detection_loop { s with current_detections := dets } rest
      | CycleEvent.exn => { s with is_running := false }

/-- `get_current_detections` (lines 108–111): a copy of the snapshot under the
lock. -/
def get_current_detections (s : ApiState) : List Detection :=
  s.current_detections

/-! ### SnapshotStore atomicity
(object_detection_api.py lines 98–99 and 108–111)

The store is the field `current_detections`, guarded by `self.lock`.  The
writer swaps in the new list inside `with self.lock` (the swap itself is a
single reference assignment); the reader takes `self.current_detections.copy()`
inside `with self.lock` — the copy walks the list element by element, so
without the lock it could interleave with a swap.  We model one writer
installing `L` over the previous snapshot `P` and one concurrent reader, at
the granularity of lock operations, single-reference swap, and element-wise
copy steps. -/

inductive LockOwner where
  | free
  | writer
  | reader
  deriving DecidableEq, Repr

inductive WriterPC where
  | wIdle
  | wHasLock
  | wSwapped
  | wDone
  deriving DecidableEq, Repr

inductive ReaderPC where
  | rIdle
  | rCopy
  | rDone
  deriving DecidableEq, Repr

structure StoreConfig where
  store : List Detection
  lock : LockOwner
  wpc : WriterPC
  rpc : ReaderPC
  buf : List Detection
  deriving DecidableEq, Repr

/-- Before the cycle under scrutiny: the store holds the previous snapshot
`P`, the lock is free, neither thread has entered its critical section. -/
def initStore (P : List Detection) : StoreConfig :=
  { store := P, lock := LockOwner.free, wpc := WriterPC.wIdle
    rpc := ReaderPC.rIdle, buf := [] }

/-- Interleaving semantics of one `replace(L)` racing one `read()`.  Writer:
acquire the lock, assign the new list reference, release.  Reader: acquire
the lock, copy the list one element at a time into `buf`, release and return
`buf`. -/
inductive StoreStep (L : List Detection) : StoreConfig → StoreConfig → Prop
  | wAcquire {c : StoreConfig}
      (hl : c.lock = LockOwner.free) (hw : c.wpc = WriterPC.wIdle) :
      StoreStep L c { c with lock := LockOwner.writer, wpc := WriterPC.wHasLock }
  | wSwap {c : StoreConfig} (hw : c.wpc = WriterPC.wHasLock) :
      StoreStep L c { c with store := L, wpc := WriterPC.wSwapped }
  | wRelease {c : StoreConfig} (hw : c.wpc = WriterPC.wSwapped) :
      StoreStep L c { c with lock := LockOwner.free, wpc := WriterPC.wDone }
  | rAcquire {c : StoreConfig}
      (hl : c.lock = LockOwner.free) (hr : c.rpc = ReaderPC.rIdle) :
      StoreStep L c
        { c with lock := LockOwner.reader, rpc := ReaderPC.rCopy, buf := [] }
  | rCopyStep {c : StoreConfig} (hr : c.rpc = ReaderPC.rCopy)
      (hn : c.buf.length < c.store.length) :
      StoreStep L c { c with buf := c.buf ++ [c.store.get ⟨c.buf.length, hn⟩] }
  | rFinish {c : StoreConfig} (hr : c.rpc = ReaderPC.rCopy)
      (hn : c.buf.length = c.store.length) :
      StoreStep L c { c with lock := LockOwner.free, rpc := ReaderPC.rDone }

/-- Inductive invariant: the store only ever holds a whole snapshot (`P` or
`L`); a writer inside its critical section owns the lock; a reader mid-copy
owns the lock and its buffer is an exact prefix of the (therefore frozen)
store; a finished reader holds a whole snapshot. -/
def StoreInv (P L : List Detection) (c : StoreConfig) : Prop :=
  (c.store = P ∨ c.store = L) ∧
  ((c.wpc = WriterPC.wHasLock ∨ c.wpc = WriterPC.wSwapped) →
    c.lock = LockOwner.writer) ∧
  (c.rpc = ReaderPC.rCopy →
    c.lock = LockOwner.reader ∧ c.buf = c.store.take c.buf.length) ∧
  (c.rpc = ReaderPC.rDone → c.buf = P ∨ c.buf = L)

/-! ### Concrete fixtures

The spec's concrete scenario snapshot (§8): `[person 0.9/2.0, chair 0.7/1.5,
chair 0.4/1.9]`, together with concrete states used as witnesses. -/

def dPerson : Detection :=
  { cls := "person", confidence := 9/10, bbox := (0, 0, 10, 10), depth := 2
    timestamp := 0 }

def dChair1 : Detection :=
  { cls := "chair", confidence := 7/10, bbox := (0, 0, 10, 10), depth := 3/2
    timestamp := 0 }

def dChair2 : Detection :=
  { cls := "chair", confidence := 2/5, bbox := (0, 0, 10, 10), depth := 19/10
    timestamp := 0 }

def specSnapshot : List Detection := [dPerson, dChair1, dChair2]

/-- A worker that is up and running with one published snapshot. -/
def runningState : ApiState :=
  { detector := true, is_running := true, current_detections := [dPerson]
    threads_spawned := 1 }

/-- End configuration of a concrete interleaving in which the writer installs
`[dPerson]` over the empty initial snapshot before the reader copies. -/
def finalStoreConfig : StoreConfig :=
  { store := [dPerson], lock := LockOwner.free, wpc := WriterPC.wDone
    rpc := ReaderPC.rDone, buf := [dPerson] }

/-- One raw network row: confidence 0.9, class index 15 (`"person"`). -/
def rawPerson : RawDet :=
  { confidence := 9/10, idx := 15, bbox := (0, 0, 10, 10) }

def objPerson : DetObj :=
  { cls := "person", confidence := 9/10, bbox := (0, 0, 10, 10) }

/-! ## Supporting lemmas -/

theorem query_objects_eq_filter (objClass : Option String) (minConfidence : ℚ)
    (maxDepth : Option ℚ) (S : List Detection) :
    query_objects objClass minConfidence maxDepth S =
      S.filter (detectionPasses objClass minConfidence maxDepth) := by
  induction S with
  | nil => rfl
  | cons d rest ih =>
    by_cases h : detectionPasses objClass minConfidence maxDepth d = true
    · simp [query_objects, List.filter, h, ih]
    · simp only [Bool.not_eq_true] at h
      simp [query_objects, List.filter, h, ih]

theorem detectionPasses_iff (objClass : Option String) (minConfidence : ℚ)
    (maxDepth : Option ℚ) (d : Detection) :
    detectionPasses objClass minConfidence maxDepth d = true ↔
      queryPredicateAmended objClass minConfidence maxDepth d := by
  unfold detectionPasses queryPredicateAmended
  cases objClass with
  | none =>
    cases maxDepth with
    | none => simp [pyTruthy, not_lt]
    | some m => simp [pyTruthy, not_lt]
  | some c =>
    cases maxDepth with
    | none =>
      by_cases hc : c = "" <;> by_cases hd : d.cls = c <;>
        simp [pyTruthy, hc, hd, not_lt]
      all_goals aesop
    | some m =>
      by_cases hc : c = "" <;> by_cases hd : d.cls = c <;>
        simp [pyTruthy, hc, hd, not_lt]
      all_goals aesop

theorem classKeys_nodup (S : List Detection) : (classKeys S).Nodup := by
  induction S with
  | nil => exact List.nodup_nil
  | cons d rest ih =>
    refine List.Nodup.cons ?_ (ih.filter _)
    intro hmem
    have := (List.mem_filter.mp hmem).2
    simp at this

theorem mem_classKeys {S : List Detection} {d : Detection} (hd : d ∈ S) :
    d.cls ∈ classKeys S := by
  induction S with
  | nil => cases hd
  | cons e rest ih =>
    rcases List.mem_cons.mp hd with h | h
    · subst h; exact List.mem_cons_self _ _
    · by_cases hc : d.cls = e.cls
      · rw [hc]; exact List.mem_cons_self _ _
      · refine List.mem_cons_of_mem _ (List.mem_filter.mpr ⟨ih h, ?_⟩)
        simpa using hc

theorem classKeys_mem_iff {S : List Detection} {c : String} :
    c ∈ classKeys S ↔ ∃ d ∈ S, d.cls = c := by
  constructor
  · intro hc
    induction S with
    | nil => cases hc
    | cons e rest ih =>
      rcases List.mem_cons.mp hc with h | h
      · exact ⟨e, List.mem_cons_self _ _, h.symm⟩
      · obtain ⟨d, hd, hdc⟩ := ih (List.mem_filter.mp h).1
        exact ⟨d, List.mem_cons_of_mem _ hd, hdc⟩
  · rintro ⟨d, hd, rfl⟩
    exact mem_classKeys hd

/-- Counting one detection over a duplicate-free key list that contains its
class contributes exactly one. -/
theorem sum_indicator_one {keys : List String} {x : String}
    (hnd : keys.Nodup) (hx : x ∈ keys) :
    (keys.map (fun c => if x = c then 1 else 0)).sum = 1 := by
  induction keys with
  | nil => cases hx
  | cons k rest ih =>
    rcases List.mem_cons.mp hx with h | h
    · subst h
      have : (rest.map (fun c => if x = c then 1 else 0)).sum = 0 := by
        rw [List.sum_eq_zero]
        intro y hy
        obtain ⟨c, hc, rfl⟩ := List.mem_map.mp hy
        have : x ≠ c := fun hxc => (List.nodup_cons.mp hnd).1 (hxc ▸ hc)
        simp [this]
      simp [this]
    · have hx' : x ≠ k := fun hxk => (List.nodup_cons.mp hnd).1 (hxk ▸ h)
      have := ih (List.nodup_cons.mp hnd).2 h
      simp [hx', this]

/-- Per-class counts over any duplicate-free covering key list partition the
detection list. -/
theorem sum_classCount (S : List Detection) (keys : List String)
    (hnd : keys.Nodup) (hcov : ∀ d ∈ S, d.cls ∈ keys) :
    (keys.map (classCount S)).sum = S.length := by
  induction S with
  | nil =>
    rw [List.sum_eq_zero]
    · rfl
    · intro y hy
      obtain ⟨c, _, rfl⟩ := List.mem_map.mp hy
      rfl
  | cons d rest ih =>
    have hsplit : ∀ c, classCount (d :: rest) c =
        (if d.cls = c then 1 else 0) + classCount rest c := by
      intro c
      by_cases h : d.cls = c <;>
        simp [classCount, List.filter_cons, h, Nat.add_comm]
    have hmap : (keys.map (classCount (d :: rest))).sum =
        (keys.map (fun c => if d.cls = c then 1 else 0)).sum +
          (keys.map (classCount rest)).sum := by
      rw [← List.sum_map_add]
      exact congrArg List.sum (List.map_congr_left (fun c _ => hsplit c))
    rw [hmap, sum_indicator_one hnd (hcov d (List.mem_cons_self _ _)),
      ih (fun e he => hcov e (List.mem_cons_of_mem _ he)), List.length_cons]
    omega

theorem storeInv_init (P L : List Detection) : StoreInv P L (initStore P) := by
  refine ⟨Or.inl rfl, ?_, ?_, ?_⟩ <;> intro h <;> simp [initStore] at h

theorem storeInv_step {P L : List Detection} {c c' : StoreConfig}
    (hstep : StoreStep L c c') (hinv : StoreInv P L c) : StoreInv P L c' := by
  obtain ⟨hstore, hwlock, hrcopy, hrdone⟩ := hinv
  cases hstep with
  | wAcquire hl hw =>
    refine ⟨hstore, fun _ => rfl, fun hr => ?_, hrdone⟩
    exact absurd ((hrcopy hr).1) (by rw [hl]; simp)
  | wSwap hw =>
    refine ⟨Or.inr rfl, fun _ => hwlock (Or.inl hw), fun hr => ?_, hrdone⟩
    have hlr := (hrcopy hr).1
    have hlw := hwlock (Or.inl hw)
    rw [hlw] at hlr
    cases hlr
  | wRelease hw =>
    refine ⟨hstore, fun h => ?_, fun hr => ?_, hrdone⟩
    · rcases h with h | h <;> exact WriterPC.noConfusion h
    · have hlr := (hrcopy hr).1
      have hlw := hwlock (Or.inr hw)
      rw [hlw] at hlr
      cases hlr
  | rAcquire hl hr =>
    exact ⟨hstore, fun h => absurd (hwlock h) (by rw [hl]; simp),
      fun _ => ⟨rfl, by simp⟩, fun h => ReaderPC.noConfusion h⟩
  | rCopyStep hr hn =>
    refine ⟨hstore, hwlock, fun _ => ⟨(hrcopy hr).1, ?_⟩,
      fun h => ReaderPC.noConfusion (hr.symm.trans h)⟩
    have hbuf := (hrcopy hr).2
    simp only [List.length_append, List.length_singleton]
    calc c.buf ++ [c.store.get ⟨c.buf.length, hn⟩]
        = (c.store.take c.buf.length).concat (c.store.get ⟨c.buf.length, hn⟩) := by
          rw [List.concat_eq_append, ← hbuf]
      _ = c.store.take (c.buf.length + 1) := List.take_concat_get _ _ hn
  | rFinish hr hn =>
    refine ⟨hstore, fun h => ?_, fun h => ReaderPC.noConfusion h, fun _ => ?_⟩
    · have hlr := (hrcopy hr).1
      have hlw := hwlock h
      rw [hlw] at hlr
      cases hlr
    · have hbuf := (hrcopy hr).2
      rw [hn, List.take_length] at hbuf
      rcases hstore with h | h
      · exact Or.inl (by rw [hbuf, h])
      · exact Or.inr (by rw [hbuf, h])

theorem storeInv_reachable {P L : List Detection} {c : StoreConfig}
    (h : Relation.ReflTransGen (StoreStep L) (initStore P) c) :
    StoreInv P L c := by
  induction h with
  | refl => exact storeInv_init P L
  | tail _ hstep ih => exact storeInv_step hstep ih

/-- A successful Python list index returns an element of the list. -/
theorem pyIndex_mem {α : Type} {l : List α} {i : Int} {a : α}
    (h : pyIndex l i = some a) : a ∈ l := by
  unfold pyIndex at h
  split at h
  · exact List.get?_mem h
  · split at h
    · exact List.get?_mem h
    · cases h

/-- Every detection dict returned by `detect_objects` has confidence strictly
above the `0.5` threshold and a class taken from the label list. -/
theorem detect_objects_sound {raws : List RawDet} {objs : List DetObj}
    (h : detect_objects raws = some objs) :
    ∀ o ∈ objs, 1/2 < o.confidence ∧ o.cls ∈ classes := by
  induction raws generalizing objs with
  | nil =>
    rw [detect_objects, Option.some_inj] at h
    subst h
    intro o ho
    cases ho
  | cons r rest ih =>
    rw [detect_objects] at h
    by_cases hc : r.confidence > 1/2
    · rw [if_pos hc] at h
      cases hidx : pyIndex classes r.idx with
      | none => rw [hidx] at h; cases h
      | some cname =>
        cases hrest : detect_objects rest with
        | none => rw [hidx, hrest] at h; cases h
        | some objsRest =>
          rw [hidx, hrest, Option.some_inj] at h
          subst h
          intro o ho
          rcases List.mem_cons.mp ho with rfl | ho'
          · exact ⟨hc, pyIndex_mem hidx⟩
          · exact ih hrest o ho'
    · rw [if_neg hc] at h
      exact ih h

/-- A `started` outcome of `start_detection` always leaves the run flag set. -/
theorem start_detection_started_running {initOk : Bool} {s : ApiState}
    (h : (start_detection initOk s).1 = StartResult.started) :
    (start_detection initOk s).2.is_running = true := by
  unfold start_detection at h ⊢
  by_cases hr : s.is_running <;> simp [hr] at h ⊢
  by_cases hd : s.detector <;> by_cases hok : initOk <;>
    simp [initialize_detector, hd, hok] at h ⊢

/-! ## Claims -/

/-- C1: after the worker's lock-guarded swap installs `L`, every concurrent
lock-guarded read returns either the complete previous snapshot `P` or the
complete new list `L` — never a partially copied or interleaved list.  Stated
over every configuration reachable from the initial store state: whenever the
reader has completed its copy, its buffer is exactly `P` or exactly `L`. -/
theorem C1_snapshot_replacement_atomic (P L : List Detection) (c : StoreConfig)
    (hreach : Relation.ReflTransGen (StoreStep L) (initStore P) c)
    (hdone : c.rpc = ReaderPC.rDone) :
    c.buf = P ∨ c.buf = L :=
  (storeInv_reachable hreach).2.2.2 hdone

theorem C1_witness :
    finalStoreConfig.buf = ([] : List Detection) ∨
      finalStoreConfig.buf = [dPerson] := by
  refine C1_snapshot_replacement_atomic [] [dPerson] finalStoreConfig ?_ rfl
  exact Relation.ReflTransGen.tail
    (Relation.ReflTransGen.tail
      (Relation.ReflTransGen.tail
        (Relation.ReflTransGen.tail
          (Relation.ReflTransGen.tail
            (Relation.ReflTransGen.single (StoreStep.wAcquire rfl rfl))
            (StoreStep.wSwap rfl))
          (StoreStep.wRelease rfl))
        (StoreStep.rAcquire rfl rfl))
      (StoreStep.rCopyStep rfl (by decide)))
    (StoreStep.rFinish rfl (by decide))

/-- C2 counterexample: the claim's inclusion condition "class filter absent or
equal to the detection's class" fails on the code for the empty-string class
filter (reachable as `?class=`): Python truthiness treats `""` like an absent
filter, so `query` keeps a `"person"` detection even though the filter is
present and differs from `"person"`. -/
theorem C2_counterexample :
    query_objects (some "") (1/2) none [dPerson] = [dPerson] ∧
    (some "" : Option String) ≠ none ∧
    (some "" : Option String) ≠ some dPerson.cls := by
  refine ⟨?_, by simp, by simp [dPerson]⟩
  simp [query_objects, detectionPasses, pyTruthy, dPerson]
  norm_num

/-- C2 (amended): for every snapshot `S` and filter combination, `query` is an
order-preserving subsequence of `S`; a detection is included iff the class
filter is absent *or empty* or equal to its class, its confidence is at least
`minConfidence`, and the depth filter is absent or its depth is at most
`maxDepth`; with no filters, `query` returns `S` whenever every confidence
reaches the `0.5` default; no match yields the empty list rather than an
error. -/
theorem C2_query_filter_semantics (S : List Detection)
    (objClass : Option String) (minConfidence : ℚ) (maxDepth : Option ℚ) :
    (query_objects objClass minConfidence maxDepth S).Sublist S ∧
    (∀ d, d ∈ query_objects objClass minConfidence maxDepth S ↔
      d ∈ S ∧ queryPredicateAmended objClass minConfidence maxDepth d) ∧
    ((∀ d ∈ S, (1 : ℚ)/2 ≤ d.confidence) →
      query_objects none (1/2) none S = S) ∧
    query_objects objClass minConfidence maxDepth [] = [] := by
  refine ⟨?_, ?_, ?_, rfl⟩
  · rw [query_objects_eq_filter]
    exact List.filter_sublist S
  · intro d
    rw [query_objects_eq_filter, List.mem_filter, detectionPasses_iff]
  · intro hall
    rw [query_objects_eq_filter]
    refine List.filter_eq_self.mpr (fun d hd => ?_)
    rw [detectionPasses_iff]
    exact ⟨Or.inl rfl, hall d hd, fun m hm => Option.noConfusion hm⟩

theorem C2_witness :
    query_objects none (1/2) none [dPerson, dChair1] = [dPerson, dChair1] := by
  refine (C2_query_filter_semantics [dPerson, dChair1] none (1/2) none).2.2.1
    (fun d hd => ?_)
  rcases List.mem_cons.mp hd with h | h
  · rw [h, dPerson]; norm_num
  · rw [List.mem_singleton.mp h, dChair1]; norm_num

/-- C3: for every snapshot `S` and request instant, the summary's
`total_objects` equals `len S` and the per-class counts sum to `len S`; the
empty snapshot yields `total_objects = 0` and an empty class list rather than
an error. -/
theorem C3_summary_totals (now : Nat) (S : List Detection) :
    (get_detection_summary now S).total_objects = S.length ∧
    ((get_detection_summary now S).objects.map (fun g => g.count)).sum =
      S.length ∧
    (get_detection_summary now []).total_objects = 0 ∧
    (get_detection_summary now []).objects = [] := by
  refine ⟨?_, ?_, rfl, rfl⟩ <;> by_cases h : S = []
  · simp [h, get_detection_summary]
  · simp [get_detection_summary, h]
  · simp [h, get_detection_summary]
  · have hne : S.isEmpty = false := by
      cases S with
      | nil => exact absurd rfl h
      | cons a t => rfl
    rw [get_detection_summary, hne]
    simp only [Bool.false_eq_true, if_false, List.map_map]
    have : ((classKeys S).map
        ((fun g : ClassSummary => g.count) ∘ (fun c =>
          { cls := c, count := classCount S c
            average_depth := classAverageDepth S c }))) =
        (classKeys S).map (classCount S) := rfl
    rw [this]
    exact sum_classCount S (classKeys S) (classKeys_nodup S)
      (fun d hd => mem_classKeys hd)

/-- C4: for every class `c` occurring in a (necessarily non-empty) snapshot
`S`, the summary has an entry for `c` whose count is the number of detections
of class `c` and whose average depth is the arithmetic mean of their depths;
on the spec's concrete snapshot the summary is `totalObjects = 3`,
`person {count 1, avgDepth 2.0}`, `chair {count 2, avgDepth 1.7}`. -/
theorem C4_per_class_aggregation :
    (∀ (now : Nat) (S : List Detection) (c : String), (∃ d ∈ S, d.cls = c) →
      ∃ e ∈ (get_detection_summary now S).objects, e.cls = c ∧
        e.count = (S.filter (fun d => d.cls == c)).length ∧
        e.average_depth =
          ((S.filter (fun d => d.cls == c)).map (fun d => d.depth)).sum /
            ((S.filter (fun d => d.cls == c)).map (fun d => d.depth)).length) ∧
    get_detection_summary 5 specSnapshot =
      { total_objects := 3
        objects := [{ cls := "person", count := 1, average_depth := 2 },
                    { cls := "chair", count := 2, average_depth := 17/10 }]
        timestamp := 5 } := by
  constructor
  · rintro now S c ⟨d, hd, rfl⟩
    have hne : S.isEmpty = false := by
      cases S with
      | nil => cases hd
      | cons a t => rfl
    refine ⟨{ cls := d.cls, count := classCount S d.cls
              average_depth := classAverageDepth S d.cls }, ?_, rfl, rfl, rfl⟩
    rw [get_detection_summary, hne]
    simp only [Bool.false_eq_true, if_false]
    exact List.mem_map.mpr ⟨d.cls, mem_classKeys hd, rfl⟩
  · simp [get_detection_summary, specSnapshot, classKeys, classCount,
      classAverageDepth, dPerson, dChair1, dChair2, List.filter_cons,
      List.filter_nil]
    norm_num

theorem C4_witness :
    ∃ e ∈ (get_detection_summary 5 specSnapshot).objects, e.cls = "chair" ∧
      e.count = (specSnapshot.filter (fun d => d.cls == "chair")).length ∧
      e.average_depth =
        ((specSnapshot.filter (fun d => d.cls == "chair")).map
          (fun d => d.depth)).sum /
          ((specSnapshot.filter (fun d => d.cls == "chair")).map
            (fun d => d.depth)).length :=
  C4_per_class_aggregation.1 5 specSnapshot "chair"
    ⟨dChair1, by simp [specSnapshot], rfl⟩

/-- C5 counterexample: after an exception escapes the loop, the resulting
state is *identical* to the state produced by an explicit `stop()` — in
particular the health query returns exactly the same payload.  There is no
distinct `Failed` worker state discoverable as different from `Stopped`, so
the claim's "distinct WorkerState `Failed`" is false on the code. -/
theorem C5_counterexample :
    detection_loop runningState [CycleEvent.exn] =
      (stop_detection runningState).2 ∧
    health 7 (detection_loop runningState [CycleEvent.exn]) =
      health 7 (stop_detection runningState).2 :=
  ⟨rfl, rfl⟩

/-- C5 (amended): when an exception escapes frame acquisition or inference,
the worker clears the run flag and terminates the loop immediately — the rest
of the schedule is never executed (no automatic retry) — while the snapshot
store retains its last successfully written snapshot unchanged, and a fresh
`start()` succeeds again; but the post-failure state is not a distinct
`Failed` state: it equals the state an explicit stop would produce. -/
theorem C5_exception_terminates_loop (s : ApiState) (rest : List CycleEvent)
    (hrun : s.is_running = true) (hdet : s.detector = true) :
    detection_loop s (CycleEvent.exn :: rest) = { s with is_running := false } ∧
    (detection_loop s (CycleEvent.exn :: rest)).current_detections =
      s.current_detections ∧
    (detection_loop s (CycleEvent.exn :: rest)).is_running = false ∧
    (start_detection true (detection_loop s (CycleEvent.exn :: rest))).1 =
      StartResult.started := by
  have hloop : detection_loop s (CycleEvent.exn :: rest) =
      { s with is_running := false } := by
    simp [detection_loop, hrun, hdet]
  refine ⟨hloop, by rw [hloop], by rw [hloop], ?_⟩
  rw [hloop]
  simp [start_detection, hdet]

theorem C5_witness :
    detection_loop runningState [CycleEvent.exn, CycleEvent.ok [dChair1]] =
      { runningState with is_running := false } ∧
    (detection_loop runningState [CycleEvent.exn, CycleEvent.ok [dChair1]]
      ).current_detections = runningState.current_detections ∧
    (detection_loop runningState [CycleEvent.exn, CycleEvent.ok [dChair1]]
      ).is_running = false ∧
    (start_detection true (detection_loop runningState
      [CycleEvent.exn, CycleEvent.ok [dChair1]])).1 = StartResult.started :=
  C5_exception_terminates_loop runningState [CycleEvent.ok [dChair1]] rfl rfl

/-- C6: a second `start()` with no intervening `stop()` returns
`already_running`, leaves the state exactly unchanged, and spawns no second
loop (the spawn counter does not move). -/
theorem C6_double_start (s : ApiState) (initOk1 initOk2 : Bool)
    (h : (start_detection initOk1 s).1 = StartResult.started) :
    (start_detection initOk2 (start_detection initOk1 s).2).1 =
      StartResult.already_running ∧
    (start_detection initOk2 (start_detection initOk1 s).2).2 =
      (start_detection initOk1 s).2 ∧
    (start_detection initOk2 (start_detection initOk1 s).2).2.threads_spawned =
      (start_detection initOk1 s).2.threads_spawned := by
  have hrun := start_detection_started_running h
  have houter : start_detection initOk2 (start_detection initOk1 s).2 =
      (StartResult.already_running, (start_detection initOk1 s).2) := by
    generalize hgen : (start_detection initOk1 s).2 = s1 at hrun
    simp [start_detection, hrun]
  exact ⟨by rw [houter], by rw [houter], by rw [houter]⟩

theorem C6_witness :
    (start_detection true (start_detection true initialApiState).2).1 =
      StartResult.already_running ∧
    (start_detection true (start_detection true initialApiState).2).2 =
      (start_detection true initialApiState).2 ∧
    (start_detection true
        (start_detection true initialApiState).2).2.threads_spawned =
      (start_detection true initialApiState).2.threads_spawned :=
  C6_double_start initialApiState true true rfl

/-- C7: when the detector cannot be constructed, `start()` returns `error`
and the state is exactly unchanged — the run flag stays cleared and the spawn
counter does not move. -/
theorem C7_start_error_leaves_stopped (s : ApiState)
    (hrun : s.is_running = false) (hdet : s.detector = false) :
    start_detection false s = (StartResult.error, s) ∧
    (start_detection false s).2.is_running = false ∧
    (start_detection false s).2.threads_spawned = s.threads_spawned := by
  have : start_detection false s = (StartResult.error, s) := by
    simp [start_detection, initialize_detector, hrun, hdet]
  exact ⟨this, by rw [this]; exact hrun, by rw [this]⟩

theorem C7_witness :
    start_detection false initialApiState = (StartResult.error, initialApiState) ∧
    (start_detection false initialApiState).2.is_running = false ∧
    (start_detection false initialApiState).2.threads_spawned =
      initialApiState.threads_spawned :=
  C7_start_error_leaves_stopped initialApiState rfl rfl

/-- C8 counterexample: the summary's timestamp is *not* the capture instant of
the detections it aggregates.  For a snapshot captured at instant 0 and a
request at instant 1, the summary carries timestamp 1 while every aggregated
detection carries 0. -/
theorem C8_counterexample :
    (get_detection_summary 1 [dPerson]).timestamp = 1 ∧
    dPerson.timestamp = 0 ∧
    (get_detection_summary 1 [dPerson]).timestamp ≠ dPerson.timestamp :=
  ⟨rfl, rfl, by decide⟩

/-- C8 (amended): the summary is recomputed from the current snapshot on every
request — nothing is cached — but its timestamp is the *request* instant
(`datetime.now()` at summarisation time), not the snapshot's capture instant;
the per-detection capture timestamps inside the snapshot are what stay stale
when the store stops advancing. -/
theorem C8_summary_timestamp_is_request_time (now : Nat) (S : List Detection) :
    (get_detection_summary now S).timestamp = now ∧
    (∀ d ∈ S, d ∈ get_current_detections
      { detector := true, is_running := false, current_detections := S
        threads_spawned := 1 }) := by
  constructor
  · by_cases h : S.isEmpty <;> simp [get_detection_summary, h]
  · intro d hd
    exact hd

/-- C9: `stop()` on an already-stopped worker is a no-op that still reports
`stopped`, and `stop();stop()` ends in the same state as a single `stop()`. -/
theorem C9_stop_idempotent (s : ApiState) :
    (s.is_running = false → stop_detection s = (StopResult.stopped, s)) ∧
    (stop_detection (stop_detection s).2).1 = StopResult.stopped ∧
    (stop_detection (stop_detection s).2).2 = (stop_detection s).2 := by
  refine ⟨fun h => ?_, rfl, rfl⟩
  cases s
  simp_all [stop_detection]

theorem C9_witness :
    stop_detection initialApiState = (StopResult.stopped, initialApiState) :=
  (C9_stop_idempotent initialApiState).1 rfl

/-- C10: every detection that survives `detect_objects` has confidence
strictly above 0.5 and a class drawn from the fixed 21-entry label list;
these properties carry over to the enriched detections the worker publishes,
so querying a worker-produced snapshot with the default `minConfidence = 0.5`
and no other filters returns it unchanged. -/
theorem C10_published_snapshot_invariant (raws : List RawDet)
    (objs : List DetObj) (h : detect_objects raws = some objs) :
    classes.length = 21 ∧
    (∀ o ∈ objs, 1/2 < o.confidence ∧ o.cls ∈ classes) ∧
    (∀ (depthAt : Int → Int → ℚ) (now : Nat),
      (∀ d ∈ enrich depthAt now objs,
        1/2 < d.confidence ∧ d.cls ∈ classes) ∧
      query_objects none (1/2) none (enrich depthAt now objs) =
        enrich depthAt now objs) := by
  have hsound := detect_objects_sound h
  refine ⟨rfl, hsound, fun depthAt now => ?_⟩
  have henrich : ∀ d ∈ enrich depthAt now objs,
      1/2 < d.confidence ∧ d.cls ∈ classes := by
    intro d hd
    obtain ⟨o, ho, rfl⟩ := List.mem_map.mp hd
    exact hsound o ho
  refine ⟨henrich, ?_⟩
  rw [query_objects_eq_filter]
  refine List.filter_eq_self.mpr (fun d hd => ?_)
  rw [detectionPasses_iff]
  exact ⟨Or.inl rfl, le_of_lt (henrich d hd).1,
    fun m hm => Option.noConfusion hm⟩

theorem C10_witness :
    query_objects none (1/2) none (enrich (fun _ _ => (1 : ℚ)) 3 [objPerson]) =
      enrich (fun _ _ => (1 : ℚ)) 3 [objPerson] :=
  ((C10_published_snapshot_invariant [rawPerson] [objPerson]
      (by simp [detect_objects, rawPerson, pyIndex, classes, objPerson]
          norm_num)).2.2
    (fun _ _ => (1 : ℚ)) 3).2

end Jetson
